import Mathlib

/-!
Verification development for the airdrop aggregation service.

Shallow embedding of the reconciliation / verification core:
* the `VerifiedAirdrop` record schema and its document methods
  (source: `src/models/VerifiedAirdrop.ts`),
* the sync service `AirdropSyncService`
  (source: `src/services/airdropSyncService.ts`),
* the contract prober `ContractVerificationService`
  (source: `src/services/contractVerificationService.ts`),
* the WebSocket reconnect logic of `BlockchainMonitoringService`
  (source: `src/services/blockchainMonitoringService.ts`).

Conventions: JavaScript `Date` values are modelled as `Int` epoch
milliseconds; optional fields are `Option`; JavaScript string falsiness
(`undefined` or `''`) is modelled explicitly; the Mongo store is a
`List VerifiedAirdrop`, `updateOne` is "update the first record matching
the filter", `updateMany` is a filtered map, and the schema's unique index
on `contractAddress` (schema line 95: `unique: true`, on that field alone)
is modelled as a duplicate check on save.
-/

namespace AirdropSync

/-- `status` enum of the VerifiedAirdrop schema. -/
inductive Status where
  | upcoming
  | active
  | ended
  | paused
  | cancelled
deriving DecidableEq

/-- `verificationLevel` enum of the VerifiedAirdrop schema. -/
inductive VerificationLevel where
  | unverified
  | community
  | official
  | scam
deriving DecidableEq

/-- `risks.level` enum of the VerifiedAirdrop schema. -/
inductive RiskLevel where
  | low
  | medium
  | high
  | critical
deriving DecidableEq

/-- `sources[].type` enum of the VerifiedAirdrop schema. -/
inductive SourceType where
  | api
  | scraping
  | monitoring
  | manual
deriving DecidableEq

/-- One entry of the `sources` array: `{type, url, lastUpdated, confidence}`. -/
structure SourceEntry where
  type : SourceType
  url : String
  lastUpdated : Int
  confidence : Nat
deriving DecidableEq

/-- One entry of `metadata.verificationHistory`; the schema field `by` is
named `actor` here (`by` is reserved in Lean). -/
structure HistoryEntry where
  date : Int
  action : String
  actor : String
  details : Option String
deriving DecidableEq

/-- The `risks` sub-document. -/
structure Risks where
  level : RiskLevel
  factors : List String
  warnings : List String
deriving DecidableEq

/-- The `contractInfo` sub-document (fields touched by the sync service). -/
structure ContractInfoField where
  verified : Bool
  hasClaimFunction : Bool
  owner : Option String
  lastActivity : Option Int
deriving DecidableEq

/-- The `metadata` sub-document. -/
structure Metadata where
  addedBy : String
  addedAt : Int
  lastVerified : Int
  verificationHistory : List HistoryEntry
deriving DecidableEq

/-- The `analytics` counters used by the retention sweep. -/
structure Analytics where
  views : Nat
  claims : Nat
  successfulClaims : Nat
deriving DecidableEq

/-- A canonical record of the `VerifiedAirdrop` collection.  Fields not
consulted by any modelled operation (social links beyond twitter,
`requirements`, `distribution`, `socialMetrics`, `tags`, vesting data) are
omitted; every field read or written by the functions below is present. -/
structure VerifiedAirdrop where
  name : String
  symbol : String
  contractAddress : String
  tokenAddress : String
  blockchain : String
  description : String
  website : Option String
  twitter : Option String
  endDate : Option Int
  claimDeadline : Option Int
  totalValue : Option String
  status : Status
  verificationLevel : VerificationLevel
  sources : List SourceEntry
  contractInfo : ContractInfoField
  risks : Risks
  metadata : Metadata
  analytics : Analytics
deriving DecidableEq

/-- A candidate record fetched from an external source
(`RealAirdropData` in `src/services/realAirdropService.ts`).
`contractAddress`, `tokenAddress` and `blockchain` are declared as plain
strings there (possibly empty); `website`, `endDate`, `totalValue` are
optional. -/
structure AirdropData where
  name : String
  symbol : String
  contractAddress : String
  tokenAddress : String
  blockchain : String
  description : String
  website : Option String
  twitter : Option String
  endDate : Option Int
  totalValue : Option String
  status : Status
  source : String
deriving DecidableEq

/-! ### JavaScript / Mongo helpers -/

/-- JavaScript `s || d` on strings: the empty string is falsy. -/
def jsOr (s d : String) : String :=
  if s = "" then d else s

/-- JavaScript `o || d` where `o` is an optional string
(`undefined` and `''` are both falsy). -/
def jsOrO (o : Option String) (d : String) : String :=
  match o with
  | some s => jsOr s d
  | none => d

/-- JavaScript truthiness of an optional string value. -/
def strTruthy (o : Option String) : Prop :=
  match o with
  | some s => s ≠ ""
  | none => False

instance (o : Option String) : Decidable (strTruthy o) :=
  match o with
  | some s => inferInstanceAs (Decidable (s ≠ ""))
  | none => inferInstanceAs (Decidable False)

/-- Mongo `{field: {$lt: t}}`: matches only documents where the field is
set and strictly below `t`. -/
def ltSome (o : Option Int) (t : Int) : Prop :=
  match o with
  | some x => x < t
  | none => False

instance (o : Option Int) (t : Int) : Decidable (ltSome o t) :=
  match o with
  | some x => inferInstanceAs (Decidable (x < t))
  | none => inferInstanceAs (Decidable False)

/-- JavaScript `String.prototype.toLowerCase` (ASCII case mapping),
applied by the schema's `lowercase: true` setters and by explicit
`.toLowerCase()` calls in the sync service. -/
def strToLower (s : String) : String :=
  ⟨s.data.map Char.toLower⟩

/-- JavaScript `String.prototype.toUpperCase`, applied by the schema's
`uppercase: true` setter on `symbol`. -/
def strToUpper (s : String) : String :=
  ⟨s.data.map Char.toUpper⟩

/-- `s.slice(0, n)`. -/
def strSlice (s : String) (n : Nat) : String :=
  ⟨s.data.take n⟩

/-- Mongo `updateOne`: apply `f` to the first record matching the filter
`p`, leaving every other record in place. -/
def updateOneBy {α : Type} (p : α → Prop) [DecidablePred p] (f : α → α) :
    List α → List α
  | [] => []
  | x :: xs => if p x then f x :: xs else x :: updateOneBy p f xs

/-- Mongo `updateMany`: apply `f` to every record matching the filter. -/
def updateManyBy {α : Type} (p : α → Prop) [DecidablePred p] (f : α → α)
    (l : List α) : List α :=
  l.map fun x => if p x then f x else x

/-! ### ContractVerificationService (src/services/contractVerificationService.ts) -/

/-- Result record of `verifyContract` (`ContractInfo` in the source).
Optional fields stay `none` when the corresponding sub-check was skipped
or yielded nothing. -/
structure ContractInfo where
  address : String
  blockchain : String
  isValid : Bool
  isToken : Bool
  name : Option String
  symbol : Option String
  decimals : Option Nat
  totalSupply : Option String
  isAirdropContract : Option Bool
  hasClaimFunction : Option Bool
  owner : Option String
  lastActivity : Option Int
  verified : Bool
deriving DecidableEq

/-- The chain-and-explorer state visible to the prober for one address on
one blockchain: each field models the outcome of one independent RPC /
explorer sub-check of `verifyContract`.  `none` on an optional field means
the call failed, the provider or API key was missing, or the contract does
not implement the probed function — all of which the source treats as a
normal negative result. -/
structure ChainState where
  validAddress : Bool
  code : Option String
  explorerVerified : Option Bool
  token : Option (String × String)
  decimals : Option Nat
  totalSupply : Option String
  hasClaimFn : Bool
  hasCheckFn : Bool
  owner : Option String
  lastActivity : Option Int
deriving DecidableEq

/-- `hasContractCode`: `provider.getCode(address) !== '0x'`; a missing
provider or an RPC error yields `false`. -/
def hasContractCode (c : ChainState) : Bool :=
  match c.code with
  | some code => decide (code ≠ "0x")
  | none => false

/-- The all-defaults `ContractInfo` the source builds first and returns
unchanged when the address is malformed, has no bytecode, or any
unexpected error escapes. -/
def emptyContractInfo (address blockchain : String) : ContractInfo :=
  { address := address
    blockchain := blockchain
    isValid := false
    isToken := false
    name := none
    symbol := none
    decimals := none
    totalSupply := none
    isAirdropContract := none
    hasClaimFunction := none
    owner := none
    lastActivity := none
    verified := false }

/-- `verifyContract(address, blockchain)` (lines 81-146): validity check,
bytecode check, explorer verification flag, ERC-20 token reads (decimals
defaulting to 18, totalSupply to '0'), claim/check function probes,
ownership and last activity.  Total — every failure path of the source is
a caught branch returning a partially-filled record, never an exception. -/
def verifyContract (c : ChainState) (address blockchain : String) : ContractInfo :=
  let base := emptyContractInfo address blockchain
  if c.validAddress = false then base
  else if hasContractCode c = false then base
  else
    let info1 := { base with isValid := true }
    let info2 :=
      match c.explorerVerified with
      | some v => { info1 with verified := v }
      | none => info1
    let info3 :=
      match c.token with
      | some nm =>
          { info2 with
            isToken := true
            name := some nm.1
            symbol := some nm.2
            decimals := some (c.decimals.getD 18)
            totalSupply := some (c.totalSupply.getD "0") }
      | none => info2
    { info3 with
      isAirdropContract := some c.hasCheckFn
      hasClaimFunction := some c.hasClaimFn
      owner := c.owner
      lastActivity := c.lastActivity }

/-- `isAirdropActive` (lines 400-424): valid, has a claim function, and
last activity within the last 30 days (or unknown).
`2592000000` is 30 days in milliseconds. -/
def isAirdropActive (c : ChainState) (now : Int) (address blockchain : String) : Bool :=
  let ci := verifyContract c address blockchain
  if ci.isValid = false ∨ ci.hasClaimFunction.getD false = false then false
  else
    match ci.lastActivity with
    | some t => decide (t > now - 2592000000)
    | none => true

/-! ### AirdropSyncService (src/services/airdropSyncService.ts) -/

/-- The environment a sync run reads: the clock, the retention cutoff
(three months before `now` on the source's calendar), the candidate list
returned by `realAirdropService.fetchRealAirdrops()`, and the chain state
the prober sees per (address, blockchain). -/
structure SyncEnv where
  now : Int
  cutoff : Int
  candidates : List AirdropData
  chainOf : String → String → ChainState

/-- `SyncResult` (lines 7-13). -/
structure SyncResult where
  newAirdrops : Nat
  updatedAirdrops : Nat
  verifiedContracts : Nat
  errors : List String
  lastSync : Int
deriving DecidableEq

/-- The mutable state of the service: the single-flight flag, the record
store, and the cached last result. -/
structure SyncState where
  isSyncing : Bool
  store : List VerifiedAirdrop
  lastSyncResult : Option SyncResult
deriving DecidableEq

/-- `mapSourceType` (lines 434-439). -/
def mapSourceType (source : String) : SourceType :=
  if source = "coingecko" ∨ source = "github" then SourceType.api
  else if source = "airdrop-alert" then SourceType.scraping
  else if source = "known-defi" then SourceType.manual
  else SourceType.api

/-- `calculateSourceConfidence` (lines 444-453). -/
def calculateSourceConfidence (source : String) : Nat :=
  if source = "coingecko" then 90
  else if source = "known-defi" then 95
  else if source = "airdrop-alert" then 70
  else if source = "github" then 60
  else 50

/-- The URL used for a candidate's source entry:
`airdropData.website || 'https://unknown.com'`. -/
def candidateUrl (d : AirdropData) : String :=
  jsOrO d.website "https://unknown.com"

/-- The source entry pushed for a candidate (same expression at creation,
lines 152-157, and on merge, lines 234-239). -/
def mkSourceEntry (now : Int) (d : AirdropData) : SourceEntry :=
  { type := mapSourceType d.source
    url := candidateUrl d
    lastUpdated := now
    confidence := calculateSourceConfidence d.source }

/-- The `findOne` filter of `processAirdropData` (lines 90-96): a Mongo
`$or` over `{contractAddress}`, `{tokenAddress}` and `{name, symbol}` —
a record matches when ANY disjunct does, with no precedence and no
emptiness test on the candidate's contractAddress. -/
def matchesCandidate (d : AirdropData) (r : VerifiedAirdrop) : Prop :=
  r.contractAddress = d.contractAddress ∨
  r.tokenAddress = d.tokenAddress ∨
  (r.name = d.name ∧ r.symbol = d.symbol)

instance (d : AirdropData) (r : VerifiedAirdrop) : Decidable (matchesCandidate d r) :=
  inferInstanceAs (Decidable (_ ∨ _ ∨ _))

/-- `VerifiedAirdrop.findOne({$or: ...})`: first record matching the
candidate, if any. -/
def findOneMatch (store : List VerifiedAirdrop) (d : AirdropData) :
    Option VerifiedAirdrop :=
  store.find? fun r => decide (matchesCandidate d r)

/-- The record constructed by `createNewVerifiedAirdrop` (lines 127-189)
as persisted: the schema setters lowercase the addresses and uppercase
the symbol.  Sources `coingecko`/`known-defi` start at `community`/`low`;
everything else at `unverified`/`medium`. -/
def mkVerifiedAirdrop (now : Int) (d : AirdropData) : VerifiedAirdrop :=
  let trusted := d.source = "coingecko" ∨ d.source = "known-defi"
  { name := d.name
    symbol := strToUpper d.symbol
    contractAddress := strToLower (jsOr d.contractAddress "")
    tokenAddress := strToLower (jsOr d.tokenAddress (jsOr d.contractAddress ""))
    blockchain := jsOr d.blockchain "ethereum"
    description := jsOr d.description (d.name ++ " token airdrop")
    website := d.website
    twitter := d.twitter
    endDate := d.endDate
    claimDeadline := none
    totalValue := d.totalValue
    status := d.status
    verificationLevel := if trusted then VerificationLevel.community else VerificationLevel.unverified
    sources := [mkSourceEntry now d]
    contractInfo :=
      { verified := false, hasClaimFunction := false, owner := none, lastActivity := none }
    risks :=
      { level := if trusted then RiskLevel.low else RiskLevel.medium
        factors := []
        warnings := [] }
    metadata :=
      { addedBy := "system"
        addedAt := now
        lastVerified := now
        verificationHistory :=
          [{ date := now
             action := "Airdrop created from external source"
             actor := "system"
             details := some ("Source: " ++ d.source) }] }
    analytics := { views := 0, claims := 0, successfulClaims := 0 } }

/-- `createNewVerifiedAirdrop` (lines 127-201): build the record and save
it.  The unique index on `contractAddress` alone makes the save reject a
duplicate address; the catch swallows the error and returns `null`.
(The mirrored legacy record has no bearing on the verified store and is
not modelled.) -/
def createNewVerifiedAirdrop (now : Int) (store : List VerifiedAirdrop)
    (d : AirdropData) : Option VerifiedAirdrop × List VerifiedAirdrop :=
  let newAirdrop := mkVerifiedAirdrop now d
  if store.any fun r => decide (r.contractAddress = newAirdrop.contractAddress) then
    (none, store)
  else
    (some newAirdrop, store ++ [newAirdrop])

/-- `updateExistingAirdrop`, description step (lines 209-211). -/
def updDescription (r : VerifiedAirdrop) (d : AirdropData) : VerifiedAirdrop :=
  if d.description ≠ "" ∧ d.description ≠ r.description then
    { r with description := d.description }
  else r

/-- `updateExistingAirdrop`, website step (lines 213-215). -/
def updWebsite (r : VerifiedAirdrop) (d : AirdropData) : VerifiedAirdrop :=
  if strTruthy d.website ∧ d.website ≠ r.website then
    { r with website := d.website }
  else r

/-- `updateExistingAirdrop`, endDate step (lines 217-222): when the
candidate carries a date, set it unless the record already holds the same
instant. -/
def updEndDate (r : VerifiedAirdrop) (d : AirdropData) : VerifiedAirdrop :=
  match d.endDate with
  | some t => if r.endDate = some t then r else { r with endDate := some t }
  | none => r

/-- `updateExistingAirdrop`, totalValue step (lines 224-226). -/
def updTotalValue (r : VerifiedAirdrop) (d : AirdropData) : VerifiedAirdrop :=
  if strTruthy d.totalValue ∧ d.totalValue ≠ r.totalValue then
    { r with totalValue := d.totalValue }
  else r

/-- `updateExistingAirdrop`, source-append step (lines 229-240): push a
new source entry only when no existing entry has the candidate's URL. -/
def updSources (now : Int) (r : VerifiedAirdrop) (d : AirdropData) : VerifiedAirdrop :=
  if ∃ s ∈ r.sources, s.url = candidateUrl d then r
  else { r with sources := r.sources ++ [mkSourceEntry now d] }

/-- `updateExistingAirdrop` (lines 206-250): the field-wise merge of a
candidate into an existing record, ending with the
`metadata.lastVerified` refresh. -/
def updateExistingAirdrop (now : Int) (r : VerifiedAirdrop) (d : AirdropData) :
    VerifiedAirdrop :=
  let r1 := updDescription r d
  let r2 := updWebsite r1 d
  let r3 := updEndDate r2 d
  let r4 := updTotalValue r3 d
  let r5 := updSources now r4 d
  { r5 with metadata := { r5.metadata with lastVerified := now } }

/-- The `$set` of the first `updateOne` of `verifyAndUpdateContract`
(lines 260-271): copy the probe's contract fields into `contractInfo`
(`hasClaimFunction || false`) and refresh `metadata.lastVerified`. -/
def setContractInfo (now : Int) (probe : ContractInfo) (r : VerifiedAirdrop) :
    VerifiedAirdrop :=
  { r with
    contractInfo :=
      { verified := probe.verified
        hasClaimFunction := probe.hasClaimFunction.getD false
        owner := probe.owner
        lastActivity := probe.lastActivity }
    metadata := { r.metadata with lastVerified := now } }

/-- The `$set` of the second `updateOne` of `verifyAndUpdateContract`
(lines 275-286): promote to `community` and lower risk to `low`. -/
def promoteUnverified (r : VerifiedAirdrop) : VerifiedAirdrop :=
  { r with
    verificationLevel := VerificationLevel.community
    risks := { r.risks with level := RiskLevel.low } }

/-- `verifyAndUpdateContract` (lines 255-292), given the probe result for
the address: one `updateOne` filtered on the lowercased address writing
`contractInfo`, then — only when the probe reports `verified && isValid` —
a second `updateOne` additionally filtered on
`verificationLevel: 'unverified'` performing the one-way promotion.
Both are plain update queries: no document middleware runs. -/
def verifyAndUpdateContract (now : Int) (probe : ContractInfo)
    (contractAddress : String) (store : List VerifiedAirdrop) :
    List VerifiedAirdrop :=
  let store1 :=
    updateOneBy (fun r => r.contractAddress = strToLower contractAddress)
      (setContractInfo now probe) store
  if probe.verified = true ∧ probe.isValid = true then
    updateOneBy
      (fun r =>
        r.contractAddress = strToLower contractAddress ∧
        r.verificationLevel = VerificationLevel.unverified)
      promoteUnverified store1
  else store1

/-- `processAirdropData` (lines 87-122): update the first `$or`-matched
record, else create; then, when the candidate carries a truthy contract
address, run contract enrichment and count it. -/
def processAirdropData (env : SyncEnv) (acc : List VerifiedAirdrop × SyncResult)
    (d : AirdropData) : List VerifiedAirdrop × SyncResult :=
  let step :=
    match findOneMatch acc.1 d with
    | some _ =>
        (updateOneBy (fun r => matchesCandidate d r)
           (fun r => updateExistingAirdrop env.now r d) acc.1,
         { acc.2 with updatedAirdrops := acc.2.updatedAirdrops + 1 })
    | none =>
        let created := createNewVerifiedAirdrop env.now acc.1 d
        (created.2,
         if created.1.isSome then
           { acc.2 with newAirdrops := acc.2.newAirdrops + 1 }
         else acc.2)
  if d.contractAddress ≠ "" then
    (verifyAndUpdateContract env.now
       (verifyContract (env.chainOf d.contractAddress d.blockchain)
          d.contractAddress d.blockchain)
       d.contractAddress step.1,
     { step.2 with verifiedContracts := step.2.verifiedContracts + 1 })
  else step

/-- The expiry `updateMany` of `updateExistingAirdrops` (lines 301-312),
per record: active/upcoming records whose `endDate` or `claimDeadline`
lies in the past move to `ended`. -/
def expireRecord (now : Int) (r : VerifiedAirdrop) : VerifiedAirdrop :=
  if (r.status = Status.active ∨ r.status = Status.upcoming) ∧
     (ltSome r.endDate now ∨ ltSome r.claimDeadline now) then
    { r with status := Status.ended }
  else r

/-- The liveness re-check of `updateExistingAirdrops` (lines 317-337), per
record: among active/upcoming records with a contract address, an active
record whose contract no longer looks active is saved as `ended` (the
document save also refreshes `metadata.lastVerified`). -/
def livenessRecord (env : SyncEnv) (r : VerifiedAirdrop) : VerifiedAirdrop :=
  if (r.status = Status.active ∨ r.status = Status.upcoming) ∧
     r.contractAddress ≠ "" ∧
     isAirdropActive (env.chainOf r.contractAddress r.blockchain) env.now
       r.contractAddress r.blockchain = false ∧
     r.status = Status.active then
    { r with
      status := Status.ended
      metadata := { r.metadata with lastVerified := env.now } }
  else r

/-- One maintenance pass over one record: expiry, then liveness. -/
def maintainRecord (env : SyncEnv) (r : VerifiedAirdrop) : VerifiedAirdrop :=
  livenessRecord env (expireRecord env.now r)

/-- `updateExistingAirdrops` (lines 297-343): the expiry `updateMany`
followed by the liveness loop over the (post-expiry) active records. -/
def updateExistingAirdropsStep (env : SyncEnv) (store : List VerifiedAirdrop) :
    List VerifiedAirdrop :=
  (store.map (expireRecord env.now)).map (livenessRecord env)

/-- `cleanupObsoleteData` (lines 348-366): delete ended, unverified,
low-view records last verified before the three-month cutoff. -/
def cleanupObsoleteData (env : SyncEnv) (store : List VerifiedAirdrop) :
    List VerifiedAirdrop :=
  store.filter fun r =>
    decide (¬ (r.status = Status.ended ∧
               r.metadata.lastVerified < env.cutoff ∧
               r.analytics.views < 10 ∧
               r.verificationLevel = VerificationLevel.unverified))

/-- The body of one sync run (lines 42-70): fold `processAirdropData`
over the fetched candidates, then the maintenance pass, then the
retention sweep.  (`updateStatistics` only aggregates for logging and
does not touch the store.) -/
def runSyncBatch (env : SyncEnv) (store : List VerifiedAirdrop) :
    SyncResult × List VerifiedAirdrop :=
  let init : SyncResult :=
    { newAirdrops := 0
      updatedAirdrops := 0
      verifiedContracts := 0
      errors := []
      lastSync := env.now }
  let folded := env.candidates.foldl (processAirdropData env) (store, init)
  let store1 := updateExistingAirdropsStep env folded.1
  let store2 := cleanupObsoleteData env store1
  (folded.2, store2)

/-- `syncRealAirdrops` (lines 26-82): the single-flight guard throws
before any work when a sync is in flight; otherwise the flag is set, the
batch runs to completion (per-candidate failures land in `errors`, the
general catch also only records into the result), and the `finally`
clears the flag before the result is returned and cached. -/
def syncRealAirdrops (env : SyncEnv) (st : SyncState) :
    Except String SyncResult × SyncState :=
  if st.isSyncing then
    (Except.error "Ya hay una sincronización en progreso", st)
  else
    let run := runSyncBatch env st.store
    (Except.ok run.1,
     { isSyncing := false, store := run.2, lastSyncResult := some run.1 })

/-- A `newAirdrop` / `airdropDetected` event as consumed by
`processDetectedAirdrop`. -/
structure DetectedEvent where
  contractAddress : String
  tokenAddress : Option String
  blockchain : String
  timestamp : Int
deriving DecidableEq

/-- The minimal candidate synthesized from a probe result for a detected
contract (lines 503-512). -/
def detectedAirdropData (ci : ContractInfo) (e : DetectedEvent) : AirdropData :=
  { name := jsOrO ci.name ("Token " ++ strSlice e.contractAddress 8)
    symbol := jsOrO ci.symbol "UNKNOWN"
    contractAddress := e.contractAddress
    tokenAddress := jsOrO e.tokenAddress e.contractAddress
    blockchain := e.blockchain
    description := "Airdrop detectado automáticamente en blockchain " ++ e.blockchain
    website := none
    twitter := none
    endDate := none
    totalValue := none
    status := Status.active
    source := "monitoring" }

/-- `processDetectedAirdrop` (lines 479-520): refresh activity when a
record for the address exists; otherwise probe the contract, drop the
event when the probe says invalid, else create. -/
def processDetectedAirdrop (env : SyncEnv) (store : List VerifiedAirdrop)
    (e : DetectedEvent) : List VerifiedAirdrop :=
  match store.find? fun r => decide (r.contractAddress = strToLower e.contractAddress) with
  | some _ =>
      updateOneBy (fun r => r.contractAddress = strToLower e.contractAddress)
        (fun r =>
          { r with
            contractInfo := { r.contractInfo with lastActivity := some e.timestamp }
            metadata := { r.metadata with lastVerified := env.now } })
        store
  | none =>
      let ci := verifyContract (env.chainOf e.contractAddress e.blockchain)
        e.contractAddress e.blockchain
      if ci.isValid = false then store
      else (createNewVerifiedAirdrop env.now store (detectedAirdropData ci e)).2

/-- `updateAirdropStatus` (lines 525-539), used by the `claimOpened`
listener: a plain `updateOne` setting `status` and refreshing
`metadata.lastVerified`; no document middleware runs. -/
def updateAirdropStatus (now : Int) (contractAddress : String) (status : Status)
    (store : List VerifiedAirdrop) : List VerifiedAirdrop :=
  updateOneBy (fun r => r.contractAddress = strToLower contractAddress)
    (fun r =>
      { r with
        status := status
        metadata := { r.metadata with lastVerified := now } })
    store

/-! ### VerifiedAirdrop schema methods and middleware
(src/models/VerifiedAirdrop.ts) -/

/-- Rendering of a `verificationLevel` value into the history strings. -/
def levelStr : VerificationLevel → String
  | VerificationLevel.unverified => "unverified"
  | VerificationLevel.community => "community"
  | VerificationLevel.official => "official"
  | VerificationLevel.scam => "scam"

/-- `addRiskWarning` (lines 389-406), method body: append the warning and
the factor when not already present, then recompute `risks.level` from
the resulting warning count (≥3 → high, ≥2 → medium, otherwise left as
it was). -/
def addRiskWarning (r : VerifiedAirdrop) (warning : String)
    (factor : Option String) : VerifiedAirdrop :=
  let warnings :=
    if warning ∉ r.risks.warnings then r.risks.warnings ++ [warning]
    else r.risks.warnings
  let factors :=
    match factor with
    | some f =>
        if f ≠ "" ∧ f ∉ r.risks.factors then r.risks.factors ++ [f]
        else r.risks.factors
    | none => r.risks.factors
  let level :=
    if warnings.length ≥ 3 then RiskLevel.high
    else if warnings.length ≥ 2 then RiskLevel.medium
    else r.risks.level
  { r with risks := { level := level, factors := factors, warnings := warnings } }

/-- The history entry the `pre('save')` hook (lines 282-304) appends when
`verificationLevel` was modified.  Its `details` interpolates
`this.isModified('verificationLevel')`, which stringifies to `true` in
that branch. -/
def hookEntry (now : Int) (lvl : VerificationLevel) : HistoryEntry :=
  { date := now
    action := "Verification level changed to " ++ levelStr lvl
    actor := "system"
    details := some "Previous level: true" }

/-- The `pre('save')` middleware (lines 282-304) run on a DOCUMENT save
(update queries bypass it): append a history entry when
`verificationLevel` differs from the persisted value `orig`, and refresh
`metadata.lastVerified` when anything was modified.  The tag
auto-generation branch (string/float parsing over `totalValue`) touches
only `tags`, a field no claim depends on, and is not modelled. -/
def preSaveHook (now : Int) (orig r : VerifiedAirdrop) : VerifiedAirdrop :=
  let r1 :=
    if r.verificationLevel ≠ orig.verificationLevel then
      { r with
        metadata :=
          { r.metadata with
            verificationHistory :=
              r.metadata.verificationHistory ++ [hookEntry now r.verificationLevel] } }
    else r
  if r1 ≠ orig then { r1 with metadata := { r1.metadata with lastVerified := now } }
  else r1

/-- The history entry pushed explicitly by `updateVerificationLevel`
(lines 375-387). -/
def uvlEntry (now : Int) (oldLevel newLevel : VerificationLevel)
    (updatedBy : String) (details : Option String) : HistoryEntry :=
  { date := now
    action := "Verification level changed from " ++ levelStr oldLevel ++
              " to " ++ levelStr newLevel
    actor := updatedBy
    details := details }

/-- `updateVerificationLevel` method body (lines 375-387): set the level
and push its own audit entry. -/
def updateVerificationLevelBody (now : Int) (r : VerifiedAirdrop)
    (newLevel : VerificationLevel) (updatedBy : String) (details : Option String) :
    VerifiedAirdrop :=
  { r with
    verificationLevel := newLevel
    metadata :=
      { r.metadata with
        verificationHistory :=
          r.metadata.verificationHistory ++
            [uvlEntry now r.verificationLevel newLevel updatedBy details] } }

/-- `updateVerificationLevel` followed by its `this.save()`, which runs
the `pre('save')` hook against the persisted original. -/
def updateVerificationLevel (now : Int) (r : VerifiedAirdrop)
    (newLevel : VerificationLevel) (updatedBy : String) (details : Option String) :
    VerifiedAirdrop :=
  preSaveHook now r (updateVerificationLevelBody now r newLevel updatedBy details)

/-! ### BlockchainMonitoringService reconnect logic
(src/services/blockchainMonitoringService.ts) -/

/-- Reconnect bookkeeping for one blockchain: the `reconnectAttempts`
counter, the captured `attempts` values of scheduled-but-unfired
`setTimeout` callbacks, and a log of every scheduled reconnect with its
delay. -/
structure MonitorState where
  reconnectAttempts : Nat
  pendingTimers : List Nat
  scheduledCount : Nat
  scheduledDelays : List Nat
deriving DecidableEq

/-- State before any disconnect: counter 0, nothing pending. -/
def initialMonitorState : MonitorState :=
  { reconnectAttempts := 0, pendingTimers := [], scheduledCount := 0, scheduledDelays := [] }

/-- The hard delay cap of line 510: 10 minutes in milliseconds. -/
def maxDelayMs : Nat := 600000

/-- `Math.min(this.reconnectInterval * Math.pow(2, attempts), 600000)`. -/
def reconnectDelay (interval attempts : Nat) : Nat :=
  min (interval * 2 ^ attempts) maxDelayMs

/-- `reconnectWebSocket` (lines 500-528), the synchronous part: read the
counter; when it has reached `maxAttempts` do nothing, otherwise schedule
one reconnect timer with the exponential-backoff delay, capturing the
current `attempts` value for the callback. -/
def reconnectWebSocket (maxAttempts interval : Nat) (s : MonitorState) : MonitorState :=
  let attempts := s.reconnectAttempts
  if attempts ≥ maxAttempts then s
  else
    { s with
      pendingTimers := s.pendingTimers ++ [attempts]
      scheduledCount := s.scheduledCount + 1
      scheduledDelays := s.scheduledDelays ++ [reconnectDelay interval attempts] }

/-- A scheduled reconnect timer firing (the `setTimeout` callback, lines
516-527): set the counter to the captured `attempts + 1`, await
`setupWebSocketConnection` — which catches every error internally and
resolves as soon as the socket object is constructed, before the
connection outcome is known — and then set the counter back to `0`.
The net effect on the counter is always `0`; the `catch` branch that
would skip the reset is unreachable because the awaited call never
rejects. -/
def fireReconnectTimer (s : MonitorState) : MonitorState :=
  match s.pendingTimers with
  | [] => s
  | _ :: rest => { s with pendingTimers := rest, reconnectAttempts := 0 }

/-- The observable events of one connection's reconnect loop: a
disconnect (the `close`/`error` handler invoking `reconnectWebSocket`)
and a pending reconnect timer firing. -/
inductive MonitorEvent where
  | disconnect
  | timerFires
deriving DecidableEq

/-- One step of the reconnect state machine. -/
def monitorStep (maxAttempts interval : Nat) (s : MonitorState) :
    MonitorEvent → MonitorState
  | MonitorEvent.disconnect => reconnectWebSocket maxAttempts interval s
  | MonitorEvent.timerFires => fireReconnectTimer s

/-- Run the reconnect state machine from the initial state over an event
sequence. -/
def runMonitor (maxAttempts interval : Nat) (evs : List MonitorEvent) : MonitorState :=
  evs.foldl (monitorStep maxAttempts interval) initialMonitorState

/-! ### Rank and defaults used by the theorems -/

/-- Numeric rank for the monotonicity statements; only
`unverified < community` is load-bearing (the code changes no other
level), the ranks of `official` and `scam` merely place them above. -/
def levelRank : VerificationLevel → Nat
  | VerificationLevel.unverified => 0
  | VerificationLevel.community => 1
  | VerificationLevel.official => 2
  | VerificationLevel.scam => 3

/-- Default record for positional (`getD`) access to the store. -/
def dRec : VerifiedAirdrop :=
  { name := ""
    symbol := ""
    contractAddress := ""
    tokenAddress := ""
    blockchain := "ethereum"
    description := ""
    website := none
    twitter := none
    endDate := none
    claimDeadline := none
    totalValue := none
    status := Status.upcoming
    verificationLevel := VerificationLevel.unverified
    sources := []
    contractInfo := { verified := false, hasClaimFunction := false, owner := none, lastActivity := none }
    risks := { level := RiskLevel.medium, factors := [], warnings := [] }
    metadata := { addedBy := "system", addedAt := 0, lastVerified := 0, verificationHistory := [] }
    analytics := { views := 0, claims := 0, successfulClaims := 0 } }

/-! ### Concrete fixtures for the closed witness / counterexample
theorems -/

/-- A chain state with no bytecode at the address (and nothing else
readable): `getCode` returns `'0x'`. -/
def chainNoCode : ChainState :=
  { validAddress := true
    code := some "0x"
    explorerVerified := none
    token := none
    decimals := none
    totalSupply := none
    hasClaimFn := false
    hasCheckFn := false
    owner := none
    lastActivity := none }

/-- A sync environment with no candidates whose probe sees no bytecode
anywhere. -/
def envEmpty : SyncEnv :=
  { now := 0, cutoff := 0, candidates := [], chainOf := fun _ _ => chainNoCode }

/-- A probe result reporting a valid, explorer-verified contract. -/
def probeOK : ContractInfo :=
  { address := "0xaaa"
    blockchain := "ethereum"
    isValid := true
    isToken := true
    name := some "Foo"
    symbol := some "FOO"
    decimals := some 18
    totalSupply := some "0"
    isAirdropContract := some false
    hasClaimFunction := some true
    owner := none
    lastActivity := some 3
    verified := true }

/-- An unverified stored record at address `0xaaa`. -/
def recUnverified : VerifiedAirdrop :=
  { dRec with
    name := "Aaa"
    symbol := "AAA"
    contractAddress := "0xaaa"
    tokenAddress := "0xaaa"
    status := Status.active
    verificationLevel := VerificationLevel.unverified
    metadata :=
      { addedBy := "system"
        addedAt := 0
        lastVerified := 0
        verificationHistory :=
          [{ date := 0, action := "Airdrop created from external source",
             actor := "system", details := some "Source: github" }] } }

/-- A stored record named Foo/FOO at address `0xdef`. -/
def recFoo : VerifiedAirdrop :=
  { dRec with
    name := "Foo"
    symbol := "FOO"
    contractAddress := "0xdef"
    tokenAddress := "0xdef"
    status := Status.active }

/-- A candidate named Foo/FOO carrying the DIFFERENT, non-empty contract
address `0xabc`. -/
def candFoo : AirdropData :=
  { name := "Foo"
    symbol := "FOO"
    contractAddress := "0xabc"
    tokenAddress := "0xabc"
    blockchain := "ethereum"
    description := "another foo"
    website := some "https://foo.example"
    twitter := none
    endDate := none
    totalValue := none
    status := Status.active
    source := "github" }

/-- A stored record on polygon at address `0xccc`. -/
def recPoly : VerifiedAirdrop :=
  { dRec with
    name := "Ppp"
    symbol := "PPP"
    contractAddress := "0xccc"
    tokenAddress := "0xccc"
    blockchain := "polygon"
    status := Status.active }

/-- A candidate on ETHEREUM whose mixed-case address lowercases to the
address of `recPoly`: it escapes the exact-match `findOne` but collides
at save with the unique index on `contractAddress` alone. -/
def candMixed : AirdropData :=
  { name := "Qqq"
    symbol := "QQQ"
    contractAddress := "0xCCC"
    tokenAddress := "0xQQQ"
    blockchain := "ethereum"
    description := "q"
    website := none
    twitter := none
    endDate := none
    totalValue := none
    status := Status.active
    source := "github" }

/-- A candidate with an empty contract address. -/
def candNoAddr : AirdropData :=
  { name := "Rrr"
    symbol := "RRR"
    contractAddress := ""
    tokenAddress := ""
    blockchain := "ethereum"
    description := "r"
    website := none
    twitter := none
    endDate := none
    totalValue := none
    status := Status.upcoming
    source := "airdrop-alert" }

/-- A stored record with the empty contract address. -/
def recEmptyAddr : VerifiedAirdrop :=
  { dRec with
    name := "Sss"
    symbol := "SSS"
    contractAddress := ""
    tokenAddress := ""
    status := Status.active }

/-- A detected event at an address with no record in the store. -/
def eventNew : DetectedEvent :=
  { contractAddress := "0xeee"
    tokenAddress := none
    blockchain := "ethereum"
    timestamp := 7 }

/-- An active record whose end date is already past at `now = 100`. -/
def recExpired : VerifiedAirdrop :=
  { dRec with
    name := "Ttt"
    symbol := "TTT"
    contractAddress := "0xttt"
    tokenAddress := "0xttt"
    status := Status.active
    endDate := some 50 }

/-- An ended record. -/
def recEnded : VerifiedAirdrop :=
  { dRec with
    name := "Uuu"
    symbol := "UUU"
    contractAddress := "0xuuu"
    tokenAddress := "0xuuu"
    status := Status.ended
    endDate := some 50 }

/-- An environment at `now = 100` for the maintenance-pass witnesses. -/
def envAt100 : SyncEnv :=
  { now := 100, cutoff := 0, candidates := [], chainOf := fun _ _ => chainNoCode }

/-- A record already carrying one risk warning. -/
def recOneWarning : VerifiedAirdrop :=
  { dRec with
    name := "Vvv"
    symbol := "VVV"
    contractAddress := "0xvvv"
    tokenAddress := "0xvvv"
    risks := { level := RiskLevel.medium, factors := [], warnings := ["w1"] } }

/-- An empty sync result, as initialised at the start of a run. -/
def emptyResult : SyncResult :=
  { newAirdrops := 0, updatedAirdrops := 0, verifiedContracts := 0, errors := [], lastSync := 0 }

/-- Default source entry for positional access. -/
def dSrc : SourceEntry :=
  { type := SourceType.api, url := "", lastUpdated := 0, confidence := 0 }

/-! ### Store-level helper lemmas -/

theorem length_updateOneBy {α : Type} (p : α → Prop) [DecidablePred p] (f : α → α)
    (l : List α) : (updateOneBy p f l).length = l.length := by
  induction l with
  | nil => rfl
  | cons x xs ih =>
    simp only [updateOneBy]
    split_ifs <;> simp [ih]

/-- `updateOne` leaves every position either untouched or, when the
filter accepted the element there, rewritten by `f`. -/
theorem getD_updateOneBy {α : Type} (p : α → Prop) [DecidablePred p] (f : α → α)
    (l : List α) (j : Nat) (d : α) :
    (updateOneBy p f l).getD j d = l.getD j d ∨
    (p (l.getD j d) ∧ (updateOneBy p f l).getD j d = f (l.getD j d)) := by
  induction l generalizing j with
  | nil => left; rfl
  | cons x xs ih =>
    simp only [updateOneBy]
    split_ifs with hp
    · cases j with
      | zero => right; exact ⟨hp, rfl⟩
      | succ j => left; rfl
    · cases j with
      | zero => left; rfl
      | succ j => exact ih j

/-- `updateOne` rewrites the FIRST position accepted by the filter. -/
theorem getD_updateOneBy_first {α : Type} (p : α → Prop) [DecidablePred p]
    (f : α → α) (l : List α) (d : α) :
    ∀ j, j < l.length → (∀ k, k < j → ¬ p (l.getD k d)) → p (l.getD j d) →
    (updateOneBy p f l).getD j d = f (l.getD j d) := by
  induction l with
  | nil =>
    intro j hj _ _
    exact absurd hj (by simp)
  | cons x xs ih =>
    intro j hj hk hp
    simp only [updateOneBy]
    split_ifs with hpx
    · cases j with
      | zero => rfl
      | succ j => exact absurd hpx (hk 0 (Nat.succ_pos j))
    · cases j with
      | zero => exact absurd hp hpx
      | succ j =>
        exact ih j (by simpa using hj) (fun k hkj => hk (k + 1) (by omega)) hp

/-! ### Field-wise characterisation of the merge -/

theorem updDescription_eq (r : VerifiedAirdrop) (d : AirdropData) :
    updDescription r d =
      { r with
        description :=
          if d.description ≠ "" ∧ d.description ≠ r.description then d.description
          else r.description } := by
  unfold updDescription
  split_ifs <;> rfl

theorem updWebsite_eq (r : VerifiedAirdrop) (d : AirdropData) :
    updWebsite r d =
      { r with
        website :=
          if strTruthy d.website ∧ d.website ≠ r.website then d.website
          else r.website } := by
  unfold updWebsite
  split_ifs <;> rfl

theorem updEndDate_eq (r : VerifiedAirdrop) (d : AirdropData) :
    updEndDate r d =
      { r with
        endDate :=
          match d.endDate with
          | some t => some t
          | none => r.endDate } := by
  unfold updEndDate
  cases hd : d.endDate with
  | none => rfl
  | some t =>
    show (if r.endDate = some t then r else { r with endDate := some t }) =
      { r with endDate := some t }
    split_ifs with h
    · rw [← h]
    · rfl

theorem updTotalValue_eq (r : VerifiedAirdrop) (d : AirdropData) :
    updTotalValue r d =
      { r with
        totalValue :=
          if strTruthy d.totalValue ∧ d.totalValue ≠ r.totalValue then d.totalValue
          else r.totalValue } := by
  unfold updTotalValue
  split_ifs <;> rfl

theorem updSources_eq (now : Int) (r : VerifiedAirdrop) (d : AirdropData) :
    updSources now r d =
      { r with
        sources :=
          if ∃ s ∈ r.sources, s.url = candidateUrl d then r.sources
          else r.sources ++ [mkSourceEntry now d] } := by
  unfold updSources
  split_ifs <;> rfl

/-- Closed form of `updateExistingAirdrop`: every condition refers to the
ORIGINAL record, since each step touches a field no later step reads. -/
theorem updateExistingAirdrop_eq (now : Int) (r : VerifiedAirdrop) (d : AirdropData) :
    updateExistingAirdrop now r d =
      { r with
        description :=
          if d.description ≠ "" ∧ d.description ≠ r.description then d.description
          else r.description
        website :=
          if strTruthy d.website ∧ d.website ≠ r.website then d.website
          else r.website
        endDate :=
          match d.endDate with
          | some t => some t
          | none => r.endDate
        totalValue :=
          if strTruthy d.totalValue ∧ d.totalValue ≠ r.totalValue then d.totalValue
          else r.totalValue
        sources :=
          if ∃ s ∈ r.sources, s.url = candidateUrl d then r.sources
          else r.sources ++ [mkSourceEntry now d]
        metadata := { r.metadata with lastVerified := now } } := by
  simp only [updateExistingAirdrop, updDescription_eq, updWebsite_eq, updEndDate_eq,
    updTotalValue_eq, updSources_eq]

theorem length_verifyAndUpdateContract (now : Int) (probe : ContractInfo)
    (addr : String) (store : List VerifiedAirdrop) :
    (verifyAndUpdateContract now probe addr store).length = store.length := by
  simp only [verifyAndUpdateContract]
  split_ifs
  · rw [length_updateOneBy, length_updateOneBy]
  · rw [length_updateOneBy]

/-- An `updateOne` whose effect keeps `metadata.verificationHistory`
keeps it at every position. -/
theorem getD_history_preserved (p : VerifiedAirdrop → Prop) [DecidablePred p]
    (f : VerifiedAirdrop → VerifiedAirdrop)
    (hf : ∀ x, (f x).metadata.verificationHistory = x.metadata.verificationHistory)
    (store : List VerifiedAirdrop) (j : Nat) :
    ((updateOneBy p f store).getD j dRec).metadata.verificationHistory =
      (store.getD j dRec).metadata.verificationHistory := by
  rcases getD_updateOneBy p f store j dRec with h | ⟨_, h⟩
  · rw [h]
  · rw [h]
    exact hf _

/-- The merge never touches the audit history. -/
theorem history_updateExistingAirdrop (now : Int) (r : VerifiedAirdrop)
    (d : AirdropData) :
    (updateExistingAirdrop now r d).metadata.verificationHistory =
      r.metadata.verificationHistory := by
  rw [updateExistingAirdrop_eq]

/-- Both update queries of the enrichment path keep every record's audit
history. -/
theorem history_verifyAndUpdateContract (now : Int) (probe : ContractInfo)
    (addr : String) (store : List VerifiedAirdrop) (j : Nat) :
    ((verifyAndUpdateContract now probe addr store).getD j dRec).metadata.verificationHistory =
      (store.getD j dRec).metadata.verificationHistory := by
  simp only [verifyAndUpdateContract]
  split_ifs
  · rw [getD_history_preserved _ promoteUnverified (fun x => rfl) _ j,
      getD_history_preserved _ (setContractInfo now probe) (fun x => rfl) store j]
  · rw [getD_history_preserved _ (setContractInfo now probe) (fun x => rfl) store j]

/-- A failed save means the store came back unchanged with `null`. -/
theorem createNew_none (now : Int) (store : List VerifiedAirdrop) (d : AirdropData) :
    (createNewVerifiedAirdrop now store d).1 = none →
    createNewVerifiedAirdrop now store d = (none, store) := by
  simp only [createNewVerifiedAirdrop]
  split_ifs
  · intro _
    rfl
  · intro h
    exact absurd h (by simp)

/-- The create path either rejects the duplicate or appends the one new
record at the end. -/
theorem createNew_snd (now : Int) (store : List VerifiedAirdrop) (d : AirdropData) :
    (createNewVerifiedAirdrop now store d).2 = store ∨
    (createNewVerifiedAirdrop now store d).2 = store ++ [mkVerifiedAirdrop now d] := by
  simp only [createNewVerifiedAirdrop]
  split_ifs
  · left
    rfl
  · right
    rfl

/-! ### C9 -/

/-- C9: immediately after every `addRiskWarning` call, `risks.level` is
the deterministic function of the resulting warning count (≥3 → high,
≥2 → medium, otherwise unchanged from before the call), and a warning
already present is not appended again; the call touches nothing outside
`risks`. -/
theorem c9_addRiskWarning_level (r : VerifiedAirdrop) (w : String) (f : Option String) :
    ((addRiskWarning r w f).risks.warnings =
      if w ∉ r.risks.warnings then r.risks.warnings ++ [w] else r.risks.warnings) ∧
    ((addRiskWarning r w f).risks.level =
      if (addRiskWarning r w f).risks.warnings.length ≥ 3 then RiskLevel.high
      else if (addRiskWarning r w f).risks.warnings.length ≥ 2 then RiskLevel.medium
      else r.risks.level) ∧
    (w ∈ r.risks.warnings → (addRiskWarning r w f).risks.warnings = r.risks.warnings) ∧
    ((addRiskWarning r w f).status = r.status) ∧
    ((addRiskWarning r w f).verificationLevel = r.verificationLevel) ∧
    ((addRiskWarning r w f).metadata = r.metadata) := by
  refine ⟨rfl, rfl, ?_, rfl, rfl, rfl⟩
  intro h
  simp [addRiskWarning, h]

/-- Witness for C9 at a record already holding one warning. -/
theorem c9_addRiskWarning_level_witness :
    (addRiskWarning recOneWarning "w1" none).risks.warnings = recOneWarning.risks.warnings ∧
    (addRiskWarning recOneWarning "w2" none).risks.level = RiskLevel.medium := by
  constructor
  · exact (c9_addRiskWarning_level recOneWarning "w1" none).2.2.1 (by decide)
  · have h := (c9_addRiskWarning_level recOneWarning "w2" none).2.1
    rw [h]
    decide

/-! ### C5 -/

/-- C5: the merge of a candidate into an existing record overwrites only
`description`, `website`, `endDate`, `totalValue` — each only when the
candidate's value is truthy and differs — never writes an empty or absent
candidate value, appends a source entry exactly when the candidate's URL
is not yet among `sources` (so the list only grows and existing entries
are untouched), refreshes only `metadata.lastVerified`, and leaves
`status` (and every identity / trust field) unchanged. -/
theorem c5_merge_frame (now : Int) (r : VerifiedAirdrop) (d : AirdropData) :
    (updateExistingAirdrop now r d =
      { r with
        description :=
          if d.description ≠ "" ∧ d.description ≠ r.description then d.description
          else r.description
        website :=
          if strTruthy d.website ∧ d.website ≠ r.website then d.website
          else r.website
        endDate :=
          match d.endDate with
          | some t => some t
          | none => r.endDate
        totalValue :=
          if strTruthy d.totalValue ∧ d.totalValue ≠ r.totalValue then d.totalValue
          else r.totalValue
        sources :=
          if ∃ s ∈ r.sources, s.url = candidateUrl d then r.sources
          else r.sources ++ [mkSourceEntry now d]
        metadata := { r.metadata with lastVerified := now } }) ∧
    r.sources.length ≤ (updateExistingAirdrop now r d).sources.length ∧
    (∀ k, k < r.sources.length →
      (updateExistingAirdrop now r d).sources.getD k dSrc = r.sources.getD k dSrc) ∧
    ((∃ s ∈ r.sources, s.url = candidateUrl d) →
      (updateExistingAirdrop now r d).sources = r.sources) ∧
    ((¬ ∃ s ∈ r.sources, s.url = candidateUrl d) →
      (updateExistingAirdrop now r d).sources = r.sources ++ [mkSourceEntry now d]) ∧
    (updateExistingAirdrop now r d).status = r.status ∧
    (updateExistingAirdrop now r d).verificationLevel = r.verificationLevel ∧
    (updateExistingAirdrop now r d).risks = r.risks ∧
    (updateExistingAirdrop now r d).name = r.name ∧
    (updateExistingAirdrop now r d).symbol = r.symbol ∧
    (updateExistingAirdrop now r d).contractAddress = r.contractAddress ∧
    (updateExistingAirdrop now r d).tokenAddress = r.tokenAddress ∧
    (updateExistingAirdrop now r d).blockchain = r.blockchain ∧
    (updateExistingAirdrop now r d).claimDeadline = r.claimDeadline ∧
    (updateExistingAirdrop now r d).metadata.verificationHistory =
      r.metadata.verificationHistory := by
  rw [updateExistingAirdrop_eq]
  refine ⟨rfl, ?_, ?_, ?_, ?_, rfl, rfl, rfl, rfl, rfl, rfl, rfl, rfl, rfl, rfl⟩
  · show r.sources.length ≤
      (if ∃ s ∈ r.sources, s.url = candidateUrl d then r.sources
       else r.sources ++ [mkSourceEntry now d]).length
    split_ifs
    · exact le_refl _
    · simp
  · intro k hk
    show (if ∃ s ∈ r.sources, s.url = candidateUrl d then r.sources
          else r.sources ++ [mkSourceEntry now d]).getD k dSrc = r.sources.getD k dSrc
    split_ifs
    · rfl
    · exact List.getD_append _ _ _ _ hk
  · intro h
    show (if ∃ s ∈ r.sources, s.url = candidateUrl d then r.sources
          else r.sources ++ [mkSourceEntry now d]) = r.sources
    rw [if_pos h]
  · intro h
    show (if ∃ s ∈ r.sources, s.url = candidateUrl d then r.sources
          else r.sources ++ [mkSourceEntry now d]) = r.sources ++ [mkSourceEntry now d]
    rw [if_neg h]

/-- Witness for C5: merging `candFoo` into `recFoo` (different URL, no
prior sources) appends exactly one source entry and keeps status. -/
theorem c5_merge_frame_witness :
    (updateExistingAirdrop 3 recFoo candFoo).sources =
      recFoo.sources ++ [mkSourceEntry 3 candFoo] ∧
    (updateExistingAirdrop 3 recFoo candFoo).status = recFoo.status := by
  constructor
  · exact (c5_merge_frame 3 recFoo candFoo).2.2.2.2.1 (by decide)
  · exact (c5_merge_frame 3 recFoo candFoo).2.2.2.2.2.1

/-! ### C6 -/

/-- C6: the maintenance pass moves every active/upcoming record whose
`endDate` or `claimDeadline` is past to `ended`, acts record-wise on the
store, and is a no-op on a record already `ended` — so re-running it on
an `ended` record changes nothing. -/
theorem c6_expiry_idempotent (env : SyncEnv) (r : VerifiedAirdrop)
    (store : List VerifiedAirdrop) :
    (updateExistingAirdropsStep env store = store.map (maintainRecord env)) ∧
    ((r.status = Status.active ∨ r.status = Status.upcoming) →
      (ltSome r.endDate env.now ∨ ltSome r.claimDeadline env.now) →
      (maintainRecord env r).status = Status.ended) ∧
    (r.status = Status.ended → maintainRecord env r = r) ∧
    ((maintainRecord env r).status = Status.ended →
      maintainRecord env (maintainRecord env r) = maintainRecord env r) := by
  have hfix : ∀ x : VerifiedAirdrop, x.status = Status.ended → maintainRecord env x = x := by
    intro x hs
    have hna : ¬(x.status = Status.active ∨ x.status = Status.upcoming) := by
      rw [hs]
      decide
    unfold maintainRecord expireRecord livenessRecord
    have h1 : ¬((x.status = Status.active ∨ x.status = Status.upcoming) ∧
        (ltSome x.endDate env.now ∨ ltSome x.claimDeadline env.now)) :=
      fun hcon => hna hcon.1
    rw [if_neg h1]
    have h2 : ¬((x.status = Status.active ∨ x.status = Status.upcoming) ∧
        x.contractAddress ≠ "" ∧
        isAirdropActive (env.chainOf x.contractAddress x.blockchain) env.now
          x.contractAddress x.blockchain = false ∧
        x.status = Status.active) :=
      fun hcon => hna hcon.1
    rw [if_neg h2]
  refine ⟨?_, ?_, hfix r, fun h => hfix _ h⟩
  · unfold updateExistingAirdropsStep
    rw [List.map_map]
    rfl
  · intro hs hd
    unfold maintainRecord expireRecord
    rw [if_pos ⟨hs, hd⟩]
    unfold livenessRecord
    split_ifs <;> rfl

/-- Witness for C6: at `now = 100`, the active record with `endDate = 50`
expires, and the already-ended record is untouched by another pass. -/
theorem c6_expiry_idempotent_witness :
    (maintainRecord envAt100 recExpired).status = Status.ended ∧
    maintainRecord envAt100 recEnded = recEnded := by
  constructor
  · exact (c6_expiry_idempotent envAt100 recExpired []).2.1 (Or.inl rfl) (Or.inl (by decide))
  · exact (c6_expiry_idempotent envAt100 recEnded []).2.2.1 rfl

/-! ### C1 -/

/-- Per-index effect of the first (contractInfo) `updateOne` of the
enrichment path: the trust fields it does not `$set` are unchanged. -/
theorem getD_setStep (now : Int) (probe : ContractInfo) (q : String)
    (store : List VerifiedAirdrop) (j : Nat) :
    (((updateOneBy (fun r => r.contractAddress = q) (setContractInfo now probe) store).getD
          j dRec).verificationLevel = (store.getD j dRec).verificationLevel) ∧
    (((updateOneBy (fun r => r.contractAddress = q) (setContractInfo now probe) store).getD
          j dRec).risks = (store.getD j dRec).risks) ∧
    (((updateOneBy (fun r => r.contractAddress = q) (setContractInfo now probe) store).getD
          j dRec).contractAddress = (store.getD j dRec).contractAddress) := by
  rcases getD_updateOneBy (fun r => r.contractAddress = q) (setContractInfo now probe)
    store j dRec with h | ⟨_, h⟩
  all_goals rw [h]
  · exact ⟨rfl, rfl, rfl⟩
  · exact ⟨rfl, rfl, rfl⟩

/-- C1: the contract-enrichment step never lowers `verificationLevel`.
Per record: the length is kept; the level rank never drops; the only
possible change is `unverified` → `community` together with
`risks.level = low`; any probe result without `verified ∧ isValid` leaves
the level untouched; and when the probe reports verified-and-valid, the
first stored record at the probed address that is `unverified` is indeed
promoted. -/
theorem c1_enrichment_ratchet (now : Int) (probe : ContractInfo) (addr : String)
    (store : List VerifiedAirdrop) (j : Nat) :
    ((verifyAndUpdateContract now probe addr store).length = store.length) ∧
    (levelRank (store.getD j dRec).verificationLevel ≤
      levelRank ((verifyAndUpdateContract now probe addr store).getD j dRec).verificationLevel) ∧
    (((verifyAndUpdateContract now probe addr store).getD j dRec).verificationLevel =
        (store.getD j dRec).verificationLevel ∨
      ((store.getD j dRec).verificationLevel = VerificationLevel.unverified ∧
        ((verifyAndUpdateContract now probe addr store).getD j dRec).verificationLevel =
          VerificationLevel.community ∧
        ((verifyAndUpdateContract now probe addr store).getD j dRec).risks.level =
          RiskLevel.low)) ∧
    (¬(probe.verified = true ∧ probe.isValid = true) →
      ((verifyAndUpdateContract now probe addr store).getD j dRec).verificationLevel =
        (store.getD j dRec).verificationLevel) ∧
    (probe.verified = true → probe.isValid = true → j < store.length →
      (store.getD j dRec).contractAddress = strToLower addr →
      (store.getD j dRec).verificationLevel = VerificationLevel.unverified →
      (∀ k, k < j → (store.getD k dRec).contractAddress ≠ strToLower addr) →
      ((verifyAndUpdateContract now probe addr store).getD j dRec).verificationLevel =
        VerificationLevel.community ∧
      ((verifyAndUpdateContract now probe addr store).getD j dRec).risks.level =
        RiskLevel.low) := by
  simp only [verifyAndUpdateContract]
  by_cases hv : probe.verified = true ∧ probe.isValid = true
  · rw [if_pos hv]
    have hset := getD_setStep now probe (strToLower addr) store
    have hmain :
        ((updateOneBy
            (fun r => r.contractAddress = strToLower addr ∧
              r.verificationLevel = VerificationLevel.unverified) promoteUnverified
            (updateOneBy (fun r => r.contractAddress = strToLower addr)
              (setContractInfo now probe) store)).getD j dRec).verificationLevel =
          (store.getD j dRec).verificationLevel ∨
        ((store.getD j dRec).verificationLevel = VerificationLevel.unverified ∧
          ((updateOneBy
              (fun r => r.contractAddress = strToLower addr ∧
                r.verificationLevel = VerificationLevel.unverified) promoteUnverified
              (updateOneBy (fun r => r.contractAddress = strToLower addr)
                (setContractInfo now probe) store)).getD j dRec).verificationLevel =
            VerificationLevel.community ∧
          ((updateOneBy
              (fun r => r.contractAddress = strToLower addr ∧
                r.verificationLevel = VerificationLevel.unverified) promoteUnverified
              (updateOneBy (fun r => r.contractAddress = strToLower addr)
                (setContractInfo now probe) store)).getD j dRec).risks.level =
            RiskLevel.low) := by
      rcases getD_updateOneBy
        (fun r => r.contractAddress = strToLower addr ∧
          r.verificationLevel = VerificationLevel.unverified) promoteUnverified
        (updateOneBy (fun r => r.contractAddress = strToLower addr)
          (setContractInfo now probe) store) j dRec with h | ⟨hp, h⟩
      · left
        rw [h, (hset j).1]
      · right
        refine ⟨?_, ?_, ?_⟩
        · rw [← (hset j).1]
          exact hp.2
        · rw [h]
          rfl
        · rw [h]
          rfl
    refine ⟨?_, ?_, hmain, fun hn => absurd hv hn, ?_⟩
    · rw [length_updateOneBy, length_updateOneBy]
    · rcases hmain with h | ⟨h1, h2, _⟩
      · rw [h]
      · rw [h1, h2]
        decide
    · intro _ _ hj ha hu hfirst
      have hs1 :
          (updateOneBy (fun r => r.contractAddress = strToLower addr)
            (setContractInfo now probe) store).getD j dRec =
            setContractInfo now probe (store.getD j dRec) :=
        getD_updateOneBy_first _ _ store dRec j hj (fun k hk => hfirst k hk) ha
      have hout :
          (updateOneBy
            (fun r => r.contractAddress = strToLower addr ∧
              r.verificationLevel = VerificationLevel.unverified) promoteUnverified
            (updateOneBy (fun r => r.contractAddress = strToLower addr)
              (setContractInfo now probe) store)).getD j dRec =
            promoteUnverified
              ((updateOneBy (fun r => r.contractAddress = strToLower addr)
                (setContractInfo now probe) store).getD j dRec) := by
        apply getD_updateOneBy_first
        · rw [length_updateOneBy]
          exact hj
        · intro k hk hcon
          apply hfirst k hk
          rw [← (hset k).2.2]
          exact hcon.1
        · rw [hs1]
          exact ⟨ha, hu⟩
      rw [hout, hs1]
      exact ⟨rfl, rfl⟩
  · rw [if_neg hv]
    have hset := getD_setStep now probe (strToLower addr) store
    refine ⟨length_updateOneBy _ _ _, ?_, Or.inl (hset j).1, fun _ => (hset j).1, ?_⟩
    · rw [(hset j).1]
    · intro hp hq _ _ _ _
      exact absurd ⟨hp, hq⟩ hv

/-- Witness for C1: a verified-and-valid probe on the unverified record
at its own address promotes it to `community`, `low` risk. -/
theorem c1_enrichment_ratchet_witness :
    recUnverified.verificationLevel = VerificationLevel.unverified ∧
    ((verifyAndUpdateContract 5 probeOK "0xaaa" [recUnverified]).getD 0 dRec).verificationLevel =
      VerificationLevel.community ∧
    ((verifyAndUpdateContract 5 probeOK "0xaaa" [recUnverified]).getD 0 dRec).risks.level =
      RiskLevel.low := by
  refine ⟨rfl, ?_⟩
  exact (c1_enrichment_ratchet 5 probeOK "0xaaa" [recUnverified] 0).2.2.2.2 rfl rfl
    (by decide) (by decide) rfl (fun k hk => absurd hk (Nat.not_lt_zero k))

/-! ### C4 -/

/-- C4, counterexample: the candidate `candFoo` carries the NON-empty
contract address `0xabc`, the stored record agrees with it on nothing but
(name, symbol) — yet identity resolution matches it.  The `$or` filter
has no fallback ordering and no emptiness test. -/
theorem c4_counterexample :
    candFoo.contractAddress ≠ "" ∧
    recFoo.contractAddress ≠ candFoo.contractAddress ∧
    recFoo.tokenAddress ≠ candFoo.tokenAddress ∧
    recFoo.name = candFoo.name ∧
    recFoo.symbol = candFoo.symbol ∧
    findOneMatch [recFoo] candFoo = some recFoo := by
  decide

/-- C4, amended: identity resolution matches the first stored record
agreeing on contractAddress OR tokenAddress OR the (name, symbol) pair,
whether or not the candidate's contractAddress is empty; a matched
candidate is merged (not created), so a (name, symbol) agreement alone
routes a candidate with a different, non-empty address into the existing
record. -/
theorem c4_or_identity (store : List VerifiedAirdrop) (d : AirdropData)
    (r : VerifiedAirdrop) (env : SyncEnv) (res : SyncResult) :
    (findOneMatch store d = some r → r ∈ store ∧ matchesCandidate d r) ∧
    (r ∈ store → matchesCandidate d r → findOneMatch store d ≠ none) ∧
    (findOneMatch store d = some r →
      (processAirdropData env (store, res) d).1.length = store.length ∧
      (processAirdropData env (store, res) d).2.updatedAirdrops = res.updatedAirdrops + 1 ∧
      (processAirdropData env (store, res) d).2.newAirdrops = res.newAirdrops) := by
  refine ⟨?_, ?_, ?_⟩
  · intro h
    simp only [findOneMatch] at h
    refine ⟨List.mem_of_find?_eq_some h, ?_⟩
    have h2 := List.find?_some h
    exact of_decide_eq_true h2
  · intro hm hmc hnone
    simp only [findOneMatch] at hnone
    exact absurd (decide_eq_true hmc) (List.find?_eq_none.mp hnone r hm)
  · intro h
    simp only [processAirdropData, h]
    split_ifs
    · exact ⟨by rw [length_verifyAndUpdateContract, length_updateOneBy], rfl, rfl⟩
    · exact ⟨by rw [length_updateOneBy], rfl, rfl⟩

/-- Witness for C4's amended statement at the counterexample input. -/
theorem c4_or_identity_witness :
    (processAirdropData envEmpty ([recFoo], emptyResult) candFoo).1.length = 1 ∧
    (processAirdropData envEmpty ([recFoo], emptyResult) candFoo).2.updatedAirdrops =
      emptyResult.updatedAirdrops + 1 ∧
    (processAirdropData envEmpty ([recFoo], emptyResult) candFoo).2.newAirdrops =
      emptyResult.newAirdrops := by
  exact (c4_or_identity [recFoo] candFoo recFoo envEmpty emptyResult).2.2 (by decide)

/-! ### C10 -/

/-- C10: the store is unique on `contractAddress` ALONE — a stored record
with the same address blocks a create regardless of blockchain; a
candidate without a contract address is saved with the empty string; a
create that finds no duplicate appends exactly the built record; and a
candidate whose create fails at save is dropped silently — `newAirdrops`
and `errors` are both left untouched. -/
theorem c10_address_unique_silent_drop (now : Int) (store : List VerifiedAirdrop)
    (d : AirdropData) (r : VerifiedAirdrop) (env : SyncEnv) (res : SyncResult) :
    (r ∈ store → r.contractAddress = (mkVerifiedAirdrop now d).contractAddress →
      createNewVerifiedAirdrop now store d = (none, store)) ∧
    (d.contractAddress = "" → (mkVerifiedAirdrop now d).contractAddress = "") ∧
    ((∀ x ∈ store, x.contractAddress ≠ (mkVerifiedAirdrop now d).contractAddress) →
      createNewVerifiedAirdrop now store d =
        (some (mkVerifiedAirdrop now d), store ++ [mkVerifiedAirdrop now d])) ∧
    (findOneMatch store d = none →
      (createNewVerifiedAirdrop env.now store d).1 = none →
      (processAirdropData env (store, res) d).2.newAirdrops = res.newAirdrops ∧
      (processAirdropData env (store, res) d).2.errors = res.errors ∧
      (processAirdropData env (store, res) d).1.length = store.length) := by
  refine ⟨?_, ?_, ?_, ?_⟩
  · intro hm he
    simp only [createNewVerifiedAirdrop]
    rw [if_pos (List.any_eq_true.mpr ⟨r, hm, decide_eq_true he⟩)]
  · intro h
    simp only [mkVerifiedAirdrop]
    rw [h]
    decide
  · intro h
    simp only [createNewVerifiedAirdrop]
    rw [if_neg]
    intro hc
    rcases List.any_eq_true.mp hc with ⟨x, hx, hdx⟩
    exact h x hx (of_decide_eq_true hdx)
  · intro hfind hcreate
    have hc2 : createNewVerifiedAirdrop env.now store d = (none, store) :=
      createNew_none env.now store d hcreate
    simp only [processAirdropData, hfind, hc2, Option.isSome_none, Bool.false_eq_true,
      if_false]
    split_ifs
    · exact ⟨rfl, rfl, by rw [length_verifyAndUpdateContract]⟩
    · exact ⟨rfl, rfl, rfl⟩

/-- Witness for C10: the polygon record at `0xccc` blocks the ethereum
candidate whose mixed-case address lowers to `0xccc` (uniqueness ignores
the blockchain); the empty-address candidate is stored with `''` and a
second one is rejected at save; the rejected candidate counts nothing. -/
theorem c10_address_unique_silent_drop_witness :
    createNewVerifiedAirdrop 0 [recPoly] candMixed = (none, [recPoly]) ∧
    recPoly.blockchain ≠ candMixed.blockchain ∧
    (mkVerifiedAirdrop 0 candNoAddr).contractAddress = "" ∧
    createNewVerifiedAirdrop 0 [recEmptyAddr] candNoAddr = (none, [recEmptyAddr]) ∧
    (processAirdropData envEmpty ([recPoly], emptyResult) candMixed).2.newAirdrops =
      emptyResult.newAirdrops ∧
    (processAirdropData envEmpty ([recPoly], emptyResult) candMixed).2.errors =
      emptyResult.errors := by
  have h4 := (c10_address_unique_silent_drop 0 [recPoly] candMixed recPoly envEmpty
    emptyResult).2.2.2 (by decide) (by decide)
  refine ⟨?_, by decide, ?_, ?_, h4.1, h4.2.1⟩
  · exact (c10_address_unique_silent_drop 0 [recPoly] candMixed recPoly envEmpty
      emptyResult).1 (by decide) (by decide)
  · exact (c10_address_unique_silent_drop 0 [] candNoAddr recEmptyAddr envEmpty
      emptyResult).2.1 rfl
  · exact (c10_address_unique_silent_drop 0 [recEmptyAddr] candNoAddr recEmptyAddr
      envEmpty emptyResult).1 (by decide) (by decide)

/-! ### C8 -/

/-- C8: `verifyContract` is total (modelled as a plain function); a
malformed address or an address without bytecode yields the all-false
default `{isValid:false, isToken:false, verified:false}`; and the
event-driven path never creates a record from a probe with
`isValid = false` — the store's length is unchanged, and exactly
unchanged when no record for the address existed. -/
theorem c8_probe_total_no_create (c : ChainState) (a b : String) (env : SyncEnv)
    (store : List VerifiedAirdrop) (e : DetectedEvent) :
    ((emptyContractInfo a b).isValid = false ∧
      (emptyContractInfo a b).isToken = false ∧
      (emptyContractInfo a b).verified = false) ∧
    ((c.validAddress = false ∨ hasContractCode c = false) →
      verifyContract c a b = emptyContractInfo a b) ∧
    ((verifyContract (env.chainOf e.contractAddress e.blockchain) e.contractAddress
        e.blockchain).isValid = false →
      (processDetectedAirdrop env store e).length = store.length) ∧
    ((store.find? fun r => decide (r.contractAddress = strToLower e.contractAddress)) = none →
      (verifyContract (env.chainOf e.contractAddress e.blockchain) e.contractAddress
        e.blockchain).isValid = false →
      processDetectedAirdrop env store e = store) := by
  refine ⟨⟨rfl, rfl, rfl⟩, ?_, ?_, ?_⟩
  · intro h
    simp only [verifyContract]
    by_cases hva : c.validAddress = false
    · rw [if_pos hva]
    · rcases h with h | h
      · exact absurd h hva
      · rw [if_neg hva, if_pos h]
  · intro hv
    simp only [processDetectedAirdrop]
    cases hf : store.find? fun r => decide (r.contractAddress = strToLower e.contractAddress) with
    | some x =>
        simp only []
        rw [length_updateOneBy]
    | none =>
        simp only []
        rw [if_pos hv]
  · intro hf hv
    simp only [processDetectedAirdrop, hf]
    rw [if_pos hv]

/-- Witness for C8: the probe on a no-bytecode address returns the
all-false record and the event path leaves an empty store empty. -/
theorem c8_probe_total_no_create_witness :
    verifyContract chainNoCode "0xeee" "ethereum" = emptyContractInfo "0xeee" "ethereum" ∧
    processDetectedAirdrop envEmpty [] eventNew = [] := by
  constructor
  · exact (c8_probe_total_no_create chainNoCode "0xeee" "ethereum" envEmpty []
      eventNew).2.1 (Or.inr (by decide))
  · exact (c8_probe_total_no_create chainNoCode "0xeee" "ethereum" envEmpty []
      eventNew).2.2.2 rfl (by decide)

/-! ### C3 -/

/-- C3: `sync()` is single-flight.  A call while a sync is in flight
fails fast with the SyncInProgress error and changes nothing; an accepted
call runs the whole batch, returns its result, and releases the guard in
`finally`, so the next call is accepted again. -/
theorem c3_single_flight (env env2 : SyncEnv) (st : SyncState) :
    (st.isSyncing = true →
      syncRealAirdrops env st =
        (Except.error "Ya hay una sincronización en progreso", st)) ∧
    (st.isSyncing = false →
      (syncRealAirdrops env st).2.isSyncing = false ∧
      (syncRealAirdrops env st).1 = Except.ok (runSyncBatch env st.store).1 ∧
      (syncRealAirdrops env2 (syncRealAirdrops env st).2).1 =
        Except.ok (runSyncBatch env2 (syncRealAirdrops env st).2.store).1) := by
  constructor
  · intro h
    simp [syncRealAirdrops, h]
  · intro h
    simp [syncRealAirdrops, h]

/-- Witness for C3: a busy state rejects with the error and an idle state
ends released. -/
theorem c3_single_flight_witness :
    syncRealAirdrops envEmpty ⟨true, [], none⟩ =
      (Except.error "Ya hay una sincronización en progreso", ⟨true, [], none⟩) ∧
    (syncRealAirdrops envEmpty ⟨false, [], none⟩).2.isSyncing = false := by
  exact ⟨(c3_single_flight envEmpty envEmpty ⟨true, [], none⟩).1 rfl,
    ((c3_single_flight envEmpty envEmpty ⟨false, [], none⟩).2 rfl).1⟩

/-! ### C7 -/

/-- C7, counterexample: the enrichment path raises the stored record from
`unverified` to `community` through an update query, and the record's
`verificationHistory` has exactly the same length afterwards — no audit
entry is appended (update queries bypass the `pre('save')` hook). -/
theorem c7_counterexample :
    recUnverified.verificationLevel = VerificationLevel.unverified ∧
    probeOK.verified = true ∧
    probeOK.isValid = true ∧
    ((verifyAndUpdateContract 5 probeOK "0xaaa" [recUnverified]).getD 0 dRec).verificationLevel =
      VerificationLevel.community ∧
    ((verifyAndUpdateContract 5 probeOK "0xaaa" [recUnverified]).getD 0
          dRec).metadata.verificationHistory.length =
      recUnverified.metadata.verificationHistory.length := by
  decide

/-- C7, amended: `verificationHistory` never shrinks — every modelled
operation leaves each surviving record's history intact or longer.  But
not every level/status transition appends exactly one entry: the merge,
the maintenance pass, `addRiskWarning`, the enrichment path (which can
raise `unverified` to `community`) and the claim-opened status update
append NONE, while `updateVerificationLevel` through a document save
appends its own entry plus, when the level actually changed, the
`pre('save')` hook's second one. -/
theorem c7_history_append_only (now : Int) (r : VerifiedAirdrop) (d : AirdropData)
    (w : String) (f : Option String) (env : SyncEnv) (probe : ContractInfo)
    (addr : String) (store : List VerifiedAirdrop) (j : Nat)
    (lvl : VerificationLevel) (updatedBy : String) (det : Option String)
    (e : DetectedEvent) (res : SyncResult) (status : Status) :
    ((updateExistingAirdrop now r d).metadata.verificationHistory =
      r.metadata.verificationHistory) ∧
    ((addRiskWarning r w f).metadata.verificationHistory =
      r.metadata.verificationHistory) ∧
    ((maintainRecord env r).metadata.verificationHistory =
      r.metadata.verificationHistory) ∧
    (((verifyAndUpdateContract now probe addr store).getD j dRec).metadata.verificationHistory =
      (store.getD j dRec).metadata.verificationHistory) ∧
    (((updateAirdropStatus now addr status store).getD j dRec).metadata.verificationHistory =
      (store.getD j dRec).metadata.verificationHistory) ∧
    (j < store.length →
      ((processAirdropData env (store, res) d).1.getD j dRec).metadata.verificationHistory =
        (store.getD j dRec).metadata.verificationHistory) ∧
    (j < store.length →
      ((processDetectedAirdrop env store e).getD j dRec).metadata.verificationHistory =
        (store.getD j dRec).metadata.verificationHistory) ∧
    ((updateVerificationLevel now r lvl updatedBy det).metadata.verificationHistory =
      r.metadata.verificationHistory ++ [uvlEntry now r.verificationLevel lvl updatedBy det] ++
        (if lvl = r.verificationLevel then [] else [hookEntry now lvl])) := by
  refine ⟨history_updateExistingAirdrop now r d, rfl, ?_, ?_, ?_, ?_, ?_, ?_⟩
  · unfold maintainRecord expireRecord livenessRecord
    split_ifs <;> rfl
  · exact history_verifyAndUpdateContract now probe addr store j
  · exact getD_history_preserved (fun x => x.contractAddress = strToLower addr)
      (fun x =>
        { x with
          status := status
          metadata := { x.metadata with lastVerified := now } })
      (fun x => rfl) store j
  · intro hj
    simp only [processAirdropData]
    cases hf : findOneMatch store d with
    | some x =>
        simp only [hf]
        split_ifs
        · exact (history_verifyAndUpdateContract env.now
            (verifyContract (env.chainOf d.contractAddress d.blockchain)
              d.contractAddress d.blockchain) d.contractAddress
            (updateOneBy (fun y => matchesCandidate d y)
              (fun y => updateExistingAirdrop env.now y d) store) j).trans
            (getD_history_preserved (fun y => matchesCandidate d y)
              (fun y => updateExistingAirdrop env.now y d)
              (fun y => history_updateExistingAirdrop env.now y d) store j)
        · exact getD_history_preserved (fun y => matchesCandidate d y)
            (fun y => updateExistingAirdrop env.now y d)
            (fun y => history_updateExistingAirdrop env.now y d) store j
    | none =>
        simp only [hf]
        have hbase :
            (((createNewVerifiedAirdrop env.now store d).2).getD j
                dRec).metadata.verificationHistory =
              (store.getD j dRec).metadata.verificationHistory := by
          rcases createNew_snd env.now store d with h | h
          · rw [h]
          · rw [h, List.getD_append _ _ _ _ hj]
        split_ifs <;>
          first
          | exact (history_verifyAndUpdateContract env.now
              (verifyContract (env.chainOf d.contractAddress d.blockchain)
                d.contractAddress d.blockchain) d.contractAddress
              ((createNewVerifiedAirdrop env.now store d).2) j).trans hbase
          | exact hbase
  · intro hj
    simp only [processDetectedAirdrop]
    cases hf : store.find? fun y => decide (y.contractAddress = strToLower e.contractAddress) with
    | some x =>
        simp only [hf]
        exact getD_history_preserved
          (fun y => y.contractAddress = strToLower e.contractAddress)
          (fun y =>
            { y with
              contractInfo := { y.contractInfo with lastActivity := some e.timestamp }
              metadata := { y.metadata with lastVerified := env.now } })
          (fun y => rfl) store j
    | none =>
        simp only [hf]
        have hbase :
            (((createNewVerifiedAirdrop env.now store (detectedAirdropData
                (verifyContract (env.chainOf e.contractAddress e.blockchain)
                  e.contractAddress e.blockchain) e)).2).getD j
                dRec).metadata.verificationHistory =
              (store.getD j dRec).metadata.verificationHistory := by
          rcases createNew_snd env.now store (detectedAirdropData
            (verifyContract (env.chainOf e.contractAddress e.blockchain)
              e.contractAddress e.blockchain) e) with h | h
          · rw [h]
          · rw [h, List.getD_append _ _ _ _ hj]
        split_ifs
        · rfl
        · exact hbase
  · by_cases hl : lvl = r.verificationLevel
    · rw [if_pos hl]
      simp [updateVerificationLevel, preSaveHook, updateVerificationLevelBody, hl]
      split_ifs <;> rfl
    · rw [if_neg hl]
      simp only [updateVerificationLevel, preSaveHook, updateVerificationLevelBody]
      split_ifs <;> simp_all [List.append_assoc]

/-- Witness for C7's amended statement: the batch path keeps the single
stored record's history, and an actual level change through
`updateVerificationLevel` appends exactly two entries. -/
theorem c7_history_append_only_witness :
    ((processAirdropData envEmpty ([recFoo], emptyResult) candFoo).1.getD 0
        dRec).metadata.verificationHistory =
      (([recFoo] : List VerifiedAirdrop).getD 0 dRec).metadata.verificationHistory ∧
    (updateVerificationLevel 9 recUnverified VerificationLevel.official "admin"
        none).metadata.verificationHistory =
      recUnverified.metadata.verificationHistory ++
        [uvlEntry 9 VerificationLevel.unverified VerificationLevel.official "admin" none] ++
        [hookEntry 9 VerificationLevel.official] := by
  constructor
  · exact (c7_history_append_only 0 dRec candFoo "" none envEmpty probeOK "" [recFoo] 0
      VerificationLevel.official "admin" none eventNew emptyResult
      Status.active).2.2.2.2.2.1 (by decide)
  · have h := (c7_history_append_only 9 recUnverified candFoo "" none envEmpty probeOK ""
      [recFoo] 0 VerificationLevel.official "admin" none eventNew emptyResult
      Status.active).2.2.2.2.2.2.2
    rw [h]
    decide

/-! ### C2 -/

/-- C2: evaluation of the reconnect logic at the claim's own scenario.
Four consecutive disconnects with `maxReconnectAttempts = 3` schedule
FOUR reconnects, not three — with or without the scheduled timers firing
in between — the backoff delay never escalates past the first step, and
the attempt counter ends at zero although no reconnect ever succeeded:
the counter is reset after every timer callback because
`setupWebSocketConnection` swallows its errors and resolves before the
connection outcome is known, so the attempt cap never binds. -/
theorem c2_reconnect_eval :
    (runMonitor 3 300000 [MonitorEvent.disconnect, MonitorEvent.disconnect,
      MonitorEvent.disconnect, MonitorEvent.disconnect]).scheduledCount = 4 ∧
    (runMonitor 3 300000 [MonitorEvent.disconnect, MonitorEvent.timerFires,
      MonitorEvent.disconnect, MonitorEvent.timerFires, MonitorEvent.disconnect,
      MonitorEvent.timerFires, MonitorEvent.disconnect]).scheduledCount = 4 ∧
    (runMonitor 3 300000 [MonitorEvent.disconnect, MonitorEvent.timerFires,
      MonitorEvent.disconnect]).scheduledDelays = [300000, 300000] ∧
    (runMonitor 3 300000 [MonitorEvent.disconnect, MonitorEvent.timerFires,
      MonitorEvent.disconnect, MonitorEvent.timerFires, MonitorEvent.disconnect,
      MonitorEvent.timerFires, MonitorEvent.disconnect]).reconnectAttempts = 0 := by
  decide

end AirdropSync








